import Mathlib

/-!
Shallow embedding of the manifest dependency parser of the
openteamsinc/actions GitHub Action (authoritative code:
src/src/index.mjs, channel-aware variant, functions
processPackageLine, stripVersion, isValidPackageName, processLines,
getDependenciesWithLineNumbers, processCondaEnvironment).

Lines of text are modelled as lists of characters; the JavaScript
string operations used by the source (trim, startsWith, substring,
indexOf, split) are embedded with their JavaScript semantics,
including substring's clamp-and-swap behaviour on out-of-range
indices (relevant for an unterminated flow list, where indexOf
returns -1).
-/

namespace DepScan

abbrev Chars := List Char

/-- Character list of a string literal. -/
def str (s : String) : Chars := s.data

/-- Whitespace characters removed by JavaScript trim (ASCII subset;
manifest lines contain no newline after splitting). -/
def isWSChar (c : Char) : Bool :=
  c = ' ' || c = '\t' || c = '\n' || c = '\r' || c = '\x0b' || c = '\x0c'

/-- JavaScript String.prototype.trim on a line. -/
def jsTrim (l : Chars) : Chars :=
  ((l.dropWhile isWSChar).reverse.dropWhile isWSChar).reverse

/-- JavaScript s.startsWith(p). -/
def jsStartsWith : Chars → Chars → Bool
  | _, [] => true
  | [], _ :: _ => false
  | c :: cs, p :: ps => c == p && jsStartsWith cs ps

/-- JavaScript s.indexOf(c) from position i. -/
def jsIndexOfFrom : Chars → Char → Int → Int
  | [], _, _ => -1
  | c :: cs, t, i => if c = t then i else jsIndexOfFrom cs t (i + 1)

/-- JavaScript s.indexOf(c): index of the first occurrence, or -1. -/
def jsIndexOf (s : Chars) (t : Char) : Int := jsIndexOfFrom s t 0

/-- JavaScript s.substring(a, b): both indices are clamped to
[0, length] and swapped when start exceeds end. -/
def jsSubstring (s : Chars) (a b : Int) : Chars :=
  let n : Int := s.length
  let a2 := min (max a 0) n
  let b2 := min (max b 0) n
  let lo := min a2 b2
  let hi := max a2 b2
  (s.drop lo.toNat).take (hi - lo).toNat

/-- Character class of the version-specifier delimiters, the regex
class of stripVersion's split. -/
def isVerDelim (c : Char) : Bool :=
  c = '<' || c = '>' || c = '=' || c = '~' || c = '!'

/-- stripVersion: packageLine.split(regex)[0].trim(), i.e. the text
before the first version delimiter, trimmed. -/
def stripVersion (packageLine : Chars) : Chars :=
  jsTrim (packageLine.takeWhile (fun c => !isVerDelim c))

/-- processPackageLine: drop an inline comment, trim; a blank result
or a dash-prefixed line yields null, otherwise the version-stripped
token (possibly empty, which callers treat as falsy). -/
def processPackageLine (line : Chars) : Option Chars :=
  let cleanLine := jsTrim (line.takeWhile (fun c => c ≠ '#'))
  if cleanLine.isEmpty || jsStartsWith cleanLine ['-'] then none
  else some (stripVersion cleanLine)

/-- Character class of isValidPackageName's regex. -/
def isNameChar (c : Char) : Bool :=
  c.isAlpha || c.isDigit || c = '.' || c = '_' || c = '-'

/-- isValidPackageName: the name matches one-or-more characters of
the class, anchored at both ends. -/
def isValidPackageName (packageName : Chars) : Bool :=
  !packageName.isEmpty && packageName.all isNameChar

/-- Package ecosystem tag attached to an emitted record. -/
inductive Eco where
  | pip
  | conda
deriving DecidableEq

/-- One record yielded by getDependenciesWithLineNumbers. -/
structure CondaDep where
  dependency : Chars
  lineNumber : Nat
  eco : Eco
  channel : Chars
deriving DecidableEq

/-- Mutable locals of getDependenciesWithLineNumbers. -/
structure CState where
  inDependencies : Bool
  inPipDependencies : Bool
  condaChannel : Chars
deriving DecidableEq

/-- Records produced by the flow-style branch: the text between the
brackets (JavaScript substring of the raw line), split on commas,
each piece trimmed, the non-empty ones yielded as conda records. -/
def flowDeps (line : Chars) (n : Nat) (ch : Chars) : List CondaDep :=
  ((((jsSubstring line (jsIndexOf line '[' + 1) (jsIndexOf line ']')).splitOn ',').map
      jsTrim).filter (fun d => !d.isEmpty)).map
    (fun d => { dependency := d, lineNumber := n, eco := Eco.conda, channel := ch })

/-- The channel-detection block of the loop body: a dash-prefixed
line seen while not in the dependencies section records its text
after the dash as the conda channel unless it equals defaults. -/
def channelUpdate (st : CState) (t : Chars) : CState :=
  if jsStartsWith t ['-'] && !st.inDependencies then
    if t.drop 2 ≠ str "defaults" then { st with condaChannel := t.drop 2 } else st
  else st

/-- The rest of the loop body, after the channels-line skip and the
channel-detection block, on the updated state st1 and the trimmed
line t (line is the raw line, needed by the flow branch). -/
def condaStepCore (st1 : CState) (line t : Chars) (n : Nat) : CState × List CondaDep :=
  if t = str "dependencies:" then ({ st1 with inDependencies := true }, [])
  else if st1.inDependencies && t = str "- pip:" then
    ({ st1 with inPipDependencies := true }, [])
  else
    let flow :=
      if st1.inDependencies && jsStartsWith t (str "- [") then
        flowDeps line n st1.condaChannel
      else []
    if st1.inDependencies && jsStartsWith t ['-'] && !st1.inPipDependencies &&
        !jsStartsWith t (str "- [") then
      (st1, flow ++ [{ dependency := t.drop 2, lineNumber := n, eco := Eco.conda,
                       channel := st1.condaChannel }])
    else if st1.inPipDependencies && jsStartsWith t ['-'] then
      (st1, flow ++ [{ dependency := t.drop 2, lineNumber := n, eco := Eco.pip,
                       channel := str "conda-forge" }])
    else if st1.inPipDependencies && !jsStartsWith t ['-'] then
      ({ st1 with inPipDependencies := false }, flow)
    else (st1, flow)

/-- One iteration of getDependenciesWithLineNumbers' loop body on
line number n: the next state and the records yielded at this line,
in yield order. -/
def condaStep (st : CState) (line : Chars) (n : Nat) : CState × List CondaDep :=
  let t := jsTrim line
  if jsStartsWith t (str "channels:") then (st, [])
  else condaStepCore (channelUpdate st t) line t n

/-- The walker loop: process each remaining line, the first one
carrying line number n. -/
def condaWalkAux (st : CState) : List Chars → Nat → List CondaDep
  | [], _ => []
  | l :: ls, n => (condaStep st l n).2 ++ condaWalkAux (condaStep st l n).1 ls (n + 1)

/-- Initial state of getDependenciesWithLineNumbers. -/
def initState : CState :=
  { inDependencies := false, inPipDependencies := false, condaChannel := str "conda-forge" }

/-- getDependenciesWithLineNumbers on the full text of an
environment.yml manifest: split on newlines, walk from line 1. -/
def condaDeps (s : Chars) : List CondaDep :=
  condaWalkAux initState (s.splitOn '\n') 1

/-- The parser state after walking a text, starting from the initial
state (used to exhibit reachable states). -/
def condaStateAfter (s : Chars) : CState :=
  (s.splitOn '\n').foldl (fun st l => (condaStep st l 0).1) initState

/-- Observable per-line outcome forwarded to the external
collaborators: a scoring lookup plus annotation, or an error-level
invalid-name diagnostic. -/
inductive LineEvent where
  | score (name : Chars) (eco : Eco) (ln : Nat)
  | invalidName (name : Chars) (ln : Nat)
deriving DecidableEq

/-- Line number of an event. -/
def LineEvent.ln : LineEvent → Nat
  | .score _ _ k => k
  | .invalidName _ k => k

/-- The body of processLines for the line at number n: blank lines
and null/empty tokens produce nothing; an invalid token produces the
error diagnostic; a valid token is forwarded to scoring. -/
def lineBlock (eco : Eco) (l : Chars) (n : Nat) : List LineEvent :=
  if (jsTrim l).isEmpty then []
  else
    match processPackageLine l with
    | none => []
    | some nm =>
      if nm.isEmpty then []
      else if isValidPackageName nm then [.score nm eco n]
      else [.invalidName nm n]

/-- processLines: iterate the 1-based index over all lines. -/
def lineEvents (eco : Eco) : List Chars → Nat → List LineEvent
  | [], _ => []
  | l :: ls, n => lineBlock eco l n ++ lineEvents eco ls (n + 1)

/-- processPipRequirements on a requirements.txt text: split on
newlines, process from line 1 with the pip ecosystem. -/
def pipEvents (s : Chars) : List LineEvent :=
  lineEvents Eco.pip (s.splitOn '\n') 1

/-- The loop body of processCondaEnvironment on one walker record:
strip the version, and only a truthy, valid name reaches scoring;
there is no diagnostic branch. -/
def condaEventsOf (rs : List CondaDep) : List LineEvent :=
  rs.filterMap fun r =>
    let nm := stripVersion r.dependency
    if !nm.isEmpty && isValidPackageName nm then
      some (.score nm r.eco r.lineNumber)
    else none

/-- processCondaEnvironment on the full text of a manifest. -/
def condaEvents (s : Chars) : List LineEvent :=
  condaEventsOf (condaDeps s)

/-! Helper lemmas about the embedded string primitives. -/

theorem jsStartsWith_cons_of_ne {c p : Char} (h : c ≠ p) (cs ps : Chars) :
    jsStartsWith (c :: cs) (p :: ps) = false := by
  simp [jsStartsWith, h]

theorem exists_cons_of_startsWith_dash {t : Chars} (h : jsStartsWith t ['-'] = true) :
    ∃ cs, t = '-' :: cs := by
  cases t with
  | nil => simp [jsStartsWith] at h
  | cons c cs =>
    refine ⟨cs, ?_⟩
    have hc : (c == '-') = true := by
      have := h
      simp [jsStartsWith] at this
      simp [this]
    simp at hc
    simp [hc]

theorem startsWith_dash_not_channels {t : Chars} (h : jsStartsWith t ['-'] = true) :
    jsStartsWith t (str "channels:") = false := by
  obtain ⟨cs, rfl⟩ := exists_cons_of_startsWith_dash h
  exact jsStartsWith_cons_of_ne (by decide) cs (str "hannels:")

theorem startsWith_dash_ne_deps {t : Chars} (h : jsStartsWith t ['-'] = true) :
    t ≠ str "dependencies:" := by
  obtain ⟨cs, rfl⟩ := exists_cons_of_startsWith_dash h
  intro he
  have he2 : '-' :: cs = 'd' :: str "ependencies:" := he
  injection he2 with h1 _
  exact absurd h1 (by decide)

theorem startsWith_dash_of_flow {t : Chars} (h : jsStartsWith t (str "- [") = true) :
    jsStartsWith t ['-'] = true := by
  cases t with
  | nil => exact absurd h (by simp [jsStartsWith, str])
  | cons c cs =>
    have h2 : jsStartsWith (c :: cs) ('-' :: str " [") = true := h
    simp [jsStartsWith] at h2 ⊢
    exact h2.1

theorem flowDeps_mem {line : Chars} {n : Nat} {ch : Chars} {r : CondaDep}
    (h : r ∈ flowDeps line n ch) :
    r.lineNumber = n ∧ r.eco = Eco.conda ∧ r.channel = ch := by
  simp only [flowDeps, List.mem_map] at h
  obtain ⟨d, _, rfl⟩ := h
  exact ⟨rfl, rfl, rfl⟩

theorem startsWith_cons_decomp (p : Char) (ps : Chars) {t : Chars}
    (h : jsStartsWith t (p :: ps) = true) :
    ∃ cs, t = p :: cs ∧ jsStartsWith cs ps = true := by
  cases t with
  | nil => simp [jsStartsWith] at h
  | cons c cs =>
    simp only [jsStartsWith, Bool.and_eq_true, beq_iff_eq] at h
    exact ⟨cs, by rw [h.1], h.2⟩

theorem startsWith_cons_same (c : Char) (cs ps : Chars) :
    jsStartsWith (c :: cs) (c :: ps) = jsStartsWith cs ps := by
  simp [jsStartsWith]

theorem channelUpdate_inDependencies (st : CState) (t : Chars) :
    (channelUpdate st t).inDependencies = st.inDependencies := by
  unfold channelUpdate
  repeat' split
  all_goals rfl

theorem condaStepCore_no_flow {st1 : CState} {line t : Chars} {n : Nat}
    (hf : st1.inDependencies = true → jsStartsWith t (str "- [") = false) :
    (condaStepCore st1 line t n).2.length ≤ 1 ∧
      ∀ r ∈ (condaStepCore st1 line t n).2, r.dependency = t.drop 2 := by
  have hflow : (if st1.inDependencies && jsStartsWith t (str "- [") then
      flowDeps line n st1.condaChannel else []) = [] := by
    by_cases hd : st1.inDependencies = true
    · simp [hd, hf hd]
    · simp only [Bool.not_eq_true] at hd
      simp [hd]
  simp only [condaStepCore, hflow]
  repeat' split
  all_goals simp

/-- C1 (counterexample). On the manifest
"dependencies:", "  - pip:", "    - flask", "  - numpy"
the sibling conda dependency numpy, indented back at the anchor level
of the pip block, is emitted with ecosystem pip, not conda: the
walker has no notion of a pip-subsection indentation column. -/
theorem sibling_after_pip_block_is_pip_cex :
    condaDeps (str "dependencies:\n  - pip:\n    - flask\n  - numpy") =
      [{ dependency := str "flask", lineNumber := 3, eco := Eco.pip,
         channel := str "conda-forge" },
       { dependency := str "numpy", lineNumber := 4, eco := Eco.pip,
         channel := str "conda-forge" }] := by decide

/-- C1 (amended). While the walker is inside the pip sub-section,
every line whose trimmed content is dash-prefixed — at any
indentation, other than the pip marker itself and a flow-list item —
is emitted as a pip dependency with the fixed channel conda-forge,
and the state is unchanged; the sub-section ends only at a line whose
trimmed content does not start with a dash. -/
theorem pip_block_line_is_pip (st : CState) (l : Chars) (n : Nat)
    (hd : st.inDependencies = true) (hp : st.inPipDependencies = true)
    (h1 : jsStartsWith (jsTrim l) ['-'] = true)
    (h2 : jsTrim l ≠ str "- pip:")
    (h3 : jsStartsWith (jsTrim l) (str "- [") = false) :
    condaStep st l n =
      (st, [{ dependency := (jsTrim l).drop 2, lineNumber := n, eco := Eco.pip,
              channel := str "conda-forge" }]) := by
  have hch := startsWith_dash_not_channels h1
  have hdep := startsWith_dash_ne_deps h1
  simp [condaStep, condaStepCore, channelUpdate, hch, hdep, h1, h2, h3, hd, hp]

/-- C1 (witness): the amended theorem applied at the concrete sibling
line of the counterexample manifest. -/
theorem pip_block_line_is_pip_witness :
    condaStep { inDependencies := true, inPipDependencies := true,
                condaChannel := str "conda-forge" } (str "  - numpy") 4 =
      ({ inDependencies := true, inPipDependencies := true,
         condaChannel := str "conda-forge" },
       [{ dependency := str "numpy", lineNumber := 4, eco := Eco.pip,
          channel := str "conda-forge" }]) := by
  have := pip_block_line_is_pip
    { inDependencies := true, inPipDependencies := true, condaChannel := str "conda-forge" }
    (str "  - numpy") 4 rfl rfl (by decide) (by decide) (by decide)
  simpa using this

/-- C2 (counterexample). A flow-style list attached to the
dependencies marker on the same line is not recognized at all: the
input of the claim's own concrete instance yields zero records, not
two. -/
theorem marker_flow_list_yields_nothing_cex :
    condaDeps (str "dependencies: [numpy, pandas]\n") = [] := by decide

/-- C2 (amended). A flow-style list is expanded inline only on a line
whose trimmed content starts with a dash and an opening bracket
inside the dependencies section: there every bracketed
comma-separated entry is emitted immediately as a conda-ecosystem
record at that line number with the active channel (first two
conjuncts); on every other line the step emits at most one record,
which is just the raw text after the dash — no bracket parsing ever
happens (third conjunct). A line whose trimmed content merely starts
with the dependencies marker without being exactly it — in
particular the marker followed by a flow list — yields no records at
all and only clears the pip flag (fourth conjunct), and a pip marker
followed by a flow-list remainder is not treated as a pip flow list:
it is emitted as a single conda record of the raw text after the
dash (fifth conjunct). The last three conjuncts instantiate these
rules on the claim's concrete manifests. -/
theorem flow_list_item_form :
    (∀ (st : CState) (l : Chars) (n : Nat),
        st.inDependencies = true → st.inPipDependencies = false →
        jsStartsWith (jsTrim l) (str "- [") = true →
        condaStep st l n = (st, flowDeps l n st.condaChannel)) ∧
    (∀ (line : Chars) (n : Nat) (ch : Chars) (r : CondaDep),
        r ∈ flowDeps line n ch →
        r.lineNumber = n ∧ r.eco = Eco.conda ∧ r.channel = ch) ∧
    (∀ (st : CState) (l : Chars) (n : Nat),
        (st.inDependencies = true → jsStartsWith (jsTrim l) (str "- [") = false) →
        (condaStep st l n).2.length ≤ 1 ∧
          ∀ r ∈ (condaStep st l n).2, r.dependency = (jsTrim l).drop 2) ∧
    (∀ (st : CState) (l : Chars) (n : Nat),
        jsStartsWith (jsTrim l) (str "dependencies:") = true →
        jsTrim l ≠ str "dependencies:" →
        condaStep st l n = ({ st with inPipDependencies := false }, [])) ∧
    (∀ (st : CState) (l : Chars) (n : Nat),
        st.inDependencies = true → st.inPipDependencies = false →
        jsStartsWith (jsTrim l) (str "- pip:") = true →
        jsTrim l ≠ str "- pip:" →
        condaStep st l n =
          (st, [{ dependency := (jsTrim l).drop 2, lineNumber := n, eco := Eco.conda,
                  channel := st.condaChannel }])) ∧
    condaDeps (str "dependencies:\n  - [numpy, pandas]\n") =
      [{ dependency := str "numpy", lineNumber := 2, eco := Eco.conda,
         channel := str "conda-forge" },
       { dependency := str "pandas", lineNumber := 2, eco := Eco.conda,
         channel := str "conda-forge" }] ∧
    condaDeps (str "dependencies: [numpy, pandas]\n") = [] ∧
    condaDeps (str "dependencies:\n  - pip: [flask]\n") =
      [{ dependency := str "pip: [flask]", lineNumber := 2, eco := Eco.conda,
         channel := str "conda-forge" }] := by
  refine ⟨?_, ?_, ?_, ?_, ?_, by decide, by decide, by decide⟩
  · intro st l n hd hp h
    obtain ⟨cs1, ht1, hs1⟩ := startsWith_cons_decomp '-' (str " [") h
    obtain ⟨cs2, ht2, hs2⟩ := startsWith_cons_decomp ' ' (str "[") hs1
    obtain ⟨cs3, ht3, _⟩ := startsWith_cons_decomp '[' [] hs2
    have hdash := startsWith_dash_of_flow h
    have hch := startsWith_dash_not_channels hdash
    have hdep := startsWith_dash_ne_deps hdash
    have hpne : jsTrim l ≠ str "- pip:" := by
      rw [ht1, ht2, ht3]
      intro he
      have he2 : ('-' :: ' ' :: '[' :: cs3 : Chars) = '-' :: ' ' :: 'p' :: str "ip:" := he
      injection he2 with a b
      injection b with c d2
      injection d2 with e f
      exact absurd e (by decide)
    simp [condaStep, condaStepCore, channelUpdate, hch, hdep, hdash, h, hpne, hd, hp]
  · intro line n ch r h
    exact flowDeps_mem h
  · intro st l n hf
    by_cases hch : jsStartsWith (jsTrim l) (str "channels:") = true
    · simp [condaStep, hch]
    · simp only [Bool.not_eq_true] at hch
      simp only [condaStep, hch, Bool.false_eq_true, if_false]
      refine condaStepCore_no_flow ?_
      intro h1
      rw [channelUpdate_inDependencies] at h1
      exact hf h1
  · intro st l n h1 h2
    obtain ⟨cs, ht, _⟩ := startsWith_cons_decomp 'd' (str "ependencies:") h1
    have hch : jsStartsWith (jsTrim l) (str "channels:") = false := by
      rw [ht]; exact jsStartsWith_cons_of_ne (by decide) cs (str "hannels:")
    have hdash : jsStartsWith (jsTrim l) ['-'] = false := by
      rw [ht]; exact jsStartsWith_cons_of_ne (by decide) cs []
    have hflow : jsStartsWith (jsTrim l) (str "- [") = false := by
      rw [ht]; exact jsStartsWith_cons_of_ne (by decide) cs (str " [")
    have hpip : jsTrim l ≠ str "- pip:" := by
      rw [ht]
      intro he
      have he2 : 'd' :: cs = '-' :: str " pip:" := he
      injection he2 with ha _
      exact absurd ha (by decide)
    obtain ⟨d, p, ch⟩ := st
    cases p <;>
      simp [condaStep, condaStepCore, channelUpdate, hch, hdash, hflow, hpip, h2]
  · intro st l n hd hp h1 h2
    obtain ⟨cs1, ht1, hs1⟩ := startsWith_cons_decomp '-' (str " pip:") h1
    obtain ⟨cs2, ht2, hs2⟩ := startsWith_cons_decomp ' ' (str "pip:") hs1
    obtain ⟨cs3, ht3, _⟩ := startsWith_cons_decomp 'p' (str "ip:") hs2
    have hdash : jsStartsWith (jsTrim l) ['-'] = true := by
      rw [ht1]; simp [jsStartsWith]
    have hch := startsWith_dash_not_channels hdash
    have hdep := startsWith_dash_ne_deps hdash
    have hflow : jsStartsWith (jsTrim l) (str "- [") = false := by
      rw [ht1, ht2, ht3]
      show jsStartsWith ('-' :: ' ' :: 'p' :: cs3) ('-' :: ' ' :: '[' :: ([] : Chars)) = false
      rw [startsWith_cons_same, startsWith_cons_same]
      exact jsStartsWith_cons_of_ne (by decide) cs3 []
    simp [condaStep, condaStepCore, channelUpdate, hch, hdep, hdash, hflow, h2, hd, hp]

/-- C2 (witness): the five universal conjuncts applied at the
concrete lines of the claim: a flow list item inside the
dependencies section, a record of its expansion, a non-flow line, the
dependencies marker carrying a flow list, and a pip marker carrying a
flow list. -/
theorem flow_list_item_form_witness :
    condaStep { inDependencies := true, inPipDependencies := false,
                condaChannel := str "conda-forge" } (str "  - [numpy, pandas]") 2 =
      ({ inDependencies := true, inPipDependencies := false,
         condaChannel := str "conda-forge" },
       flowDeps (str "  - [numpy, pandas]") 2 (str "conda-forge")) ∧
    (({ dependency := str "numpy", lineNumber := 2, eco := Eco.conda,
        channel := str "conda-forge" } : CondaDep).lineNumber = 2 ∧
      ({ dependency := str "numpy", lineNumber := 2, eco := Eco.conda,
         channel := str "conda-forge" } : CondaDep).eco = Eco.conda ∧
      ({ dependency := str "numpy", lineNumber := 2, eco := Eco.conda,
         channel := str "conda-forge" } : CondaDep).channel = str "conda-forge") ∧
    ((condaStep { inDependencies := true, inPipDependencies := false,
                  condaChannel := str "conda-forge" } (str "  - numpy") 2).2.length ≤ 1 ∧
      ∀ r ∈ (condaStep { inDependencies := true, inPipDependencies := false,
                         condaChannel := str "conda-forge" } (str "  - numpy") 2).2,
        r.dependency = (jsTrim (str "  - numpy")).drop 2) ∧
    condaStep { inDependencies := false, inPipDependencies := false,
                condaChannel := str "conda-forge" }
        (str "dependencies: [numpy, pandas]") 1 =
      ({ inDependencies := false, inPipDependencies := false,
         condaChannel := str "conda-forge" }, []) ∧
    condaStep { inDependencies := true, inPipDependencies := false,
                condaChannel := str "conda-forge" } (str "  - pip: [flask]") 2 =
      ({ inDependencies := true, inPipDependencies := false,
         condaChannel := str "conda-forge" },
       [{ dependency := (jsTrim (str "  - pip: [flask]")).drop 2, lineNumber := 2,
          eco := Eco.conda, channel := str "conda-forge" }]) :=
  ⟨flow_list_item_form.1
      { inDependencies := true, inPipDependencies := false, condaChannel := str "conda-forge" }
      (str "  - [numpy, pandas]") 2 rfl rfl (by decide),
   flow_list_item_form.2.1 (str "  - [numpy, pandas]") 2 (str "conda-forge")
      { dependency := str "numpy", lineNumber := 2, eco := Eco.conda,
        channel := str "conda-forge" } (by decide),
   flow_list_item_form.2.2.1
      { inDependencies := true, inPipDependencies := false, condaChannel := str "conda-forge" }
      (str "  - numpy") 2 (by decide),
   flow_list_item_form.2.2.2.1
      { inDependencies := false, inPipDependencies := false, condaChannel := str "conda-forge" }
      (str "dependencies: [numpy, pandas]") 1 (by decide) (by decide),
   flow_list_item_form.2.2.2.2.1
      { inDependencies := true, inPipDependencies := false, condaChannel := str "conda-forge" }
      (str "  - pip: [flask]") 2 rfl rfl (by decide) (by decide)⟩

/-- C3 (counterexample). A non-blank, non-dash, non-marker line does
not terminate the dependencies section: on
"dependencies:", "- numpy", "foo:", "- scipy"
the dash-prefixed line after the would-be terminator is still emitted
as a dependency record. -/
theorem emission_after_terminator_cex :
    condaDeps (str "dependencies:\n- numpy\nfoo:\n- scipy") =
      [{ dependency := str "numpy", lineNumber := 2, eco := Eco.conda,
         channel := str "conda-forge" },
       { dependency := str "scipy", lineNumber := 4, eco := Eco.conda,
         channel := str "conda-forge" }] := by decide

/-- C3 (amended). While the walker is inside the dependencies
section, a line whose trimmed content does not start with a dash and
is not the dependencies marker leaves the section open and emits no
record (it can only end the pip sub-section): the walker never exits
the dependencies section, so later dash-prefixed lines are still
emitted. -/
theorem terminator_keeps_dependencies_open (st : CState) (l : Chars) (n : Nat)
    (hd : st.inDependencies = true)
    (h1 : jsStartsWith (jsTrim l) ['-'] = false)
    (h2 : jsTrim l ≠ str "dependencies:") :
    (condaStep st l n).1.inDependencies = true ∧ (condaStep st l n).2 = [] := by
  have h3 : jsTrim l ≠ str "- pip:" := by
    intro he
    rw [he] at h1
    exact absurd h1 (by decide)
  have h4 : jsStartsWith (jsTrim l) (str "- [") = false := by
    cases hf : jsStartsWith (jsTrim l) (str "- [") with
    | false => rfl
    | true => rw [startsWith_dash_of_flow hf] at h1; exact absurd h1 (by decide)
  by_cases hch : jsStartsWith (jsTrim l) (str "channels:") = true
  · simp [condaStep, condaStepCore, channelUpdate, hch, hd]
  · simp at hch
    by_cases hp : st.inPipDependencies = true
    · simp [condaStep, condaStepCore, channelUpdate, hch, h1, h2, h3, h4, hd, hp]
    · simp at hp
      simp [condaStep, condaStepCore, channelUpdate, hch, h1, h2, h3, h4, hd, hp]

/-- C3 (witness): the amended theorem applied to the terminator line
of the counterexample manifest. -/
theorem terminator_keeps_dependencies_open_witness :
    (condaStep { inDependencies := true, inPipDependencies := false,
                 condaChannel := str "conda-forge" } (str "foo:") 3).1.inDependencies = true ∧
    (condaStep { inDependencies := true, inPipDependencies := false,
                 condaChannel := str "conda-forge" } (str "foo:") 3).2 = [] :=
  terminator_keeps_dependencies_open
    { inDependencies := true, inPipDependencies := false, condaChannel := str "conda-forge" }
    (str "foo:") 3 rfl (by decide) (by decide)

/-- C4 (counterexample). The first non-defaults channel does not
become the active channel: with channels bioconda then r, the
samtools record carries channel r (each non-defaults entry overwrites
the previous one), not bioconda as the claim's rule predicts. -/
theorem channel_first_wins_cex :
    condaDeps (str "channels:\n  - bioconda\n  - r\ndependencies:\n  - samtools\n") =
      [{ dependency := str "samtools", lineNumber := 5, eco := Eco.conda,
         channel := str "r" }] := by decide

/-- C4 (amended). Every dash-prefixed line seen while outside the
dependencies section is treated as a channel name, and each one not
equal to defaults overwrites the active channel, so the last such
entry before the dependencies section wins; absent any override the
channel is conda-forge. In particular, for a manifest listing
channels conda-forge then bioconda, the samtools record carries
channel bioconda. -/
theorem channel_last_override :
    (∀ (st : CState) (l : Chars) (n : Nat),
        st.inDependencies = false →
        jsStartsWith (jsTrim l) ['-'] = true →
        (jsTrim l).drop 2 ≠ str "defaults" →
        (condaStep st l n).1.condaChannel = (jsTrim l).drop 2) ∧
    condaDeps (str "channels:\n  - conda-forge\n  - bioconda\ndependencies:\n  - samtools\n") =
      [{ dependency := str "samtools", lineNumber := 5, eco := Eco.conda,
         channel := str "bioconda" }] := by
  constructor
  · intro st l n hd h1 h2
    have hch := startsWith_dash_not_channels h1
    have hdep := startsWith_dash_ne_deps h1
    simp [condaStep, condaStepCore, channelUpdate, hch, hdep, h1, h2, hd]
    split <;> rfl
  · decide

/-- C4 (witness): the overwrite rule applied to the channel line r of
the counterexample manifest, in the state reached after bioconda was
recorded. -/
theorem channel_last_override_witness :
    (condaStep { inDependencies := false, inPipDependencies := false,
                 condaChannel := str "bioconda" } (str "  - r") 3).1.condaChannel =
      (jsTrim (str "  - r")).drop 2 :=
  channel_last_override.1
    { inDependencies := false, inPipDependencies := false, condaChannel := str "bioconda" }
    (str "  - r") 3 rfl (by decide) (by decide)

/-- C5 (counterexample). A blank line does change the walker's parse
state: in the reachable state with the pip sub-section open (reached
by the two lines of the prefix manifest), classifying a blank line
resets the pip-sub-section flag to false. -/
theorem blank_line_state_change_cex :
    condaStateAfter (str "dependencies:\n- pip:") =
      { inDependencies := true, inPipDependencies := true,
        condaChannel := str "conda-forge" } ∧
    condaStep { inDependencies := true, inPipDependencies := true,
                condaChannel := str "conda-forge" } (str "") 3 =
      ({ inDependencies := true, inPipDependencies := false,
         condaChannel := str "conda-forge" }, []) := by
  refine ⟨by decide, by decide⟩

/-- C5 (amended). A line that trims to nothing emits no record and
leaves the dependencies flag and the active channel unchanged, but it
always clears the pip-sub-section flag: inside the pip sub-section a
blank line ends the sub-section. -/
theorem blank_line_resets_pip_flag (st : CState) (l : Chars) (n : Nat)
    (h : jsTrim l = []) :
    condaStep st l n = ({ st with inPipDependencies := false }, []) := by
  obtain ⟨d, p, ch⟩ := st
  cases p <;> simp [condaStep, condaStepCore, channelUpdate, h, jsStartsWith, str]

/-- C5 (witness): the amended theorem applied to the empty line in
the reachable pip-sub-section state. -/
theorem blank_line_resets_pip_flag_witness :
    condaStep { inDependencies := true, inPipDependencies := true,
                condaChannel := str "conda-forge" } (str "") 3 =
      ({ inDependencies := true, inPipDependencies := false,
         condaChannel := str "conda-forge" }, []) :=
  blank_line_resets_pip_flag
    { inDependencies := true, inPipDependencies := true, condaChannel := str "conda-forge" }
    (str "") 3 rfl

/-- C6 (counterexample). In the conda path an invalid dependency
token is dropped silently: for the manifest whose dependency line
reduces to my@pkg, processCondaEnvironment performs no scoring lookup
but also reports no invalid-name diagnostic — the event list is
empty, while the claim requires an error-level diagnostic at the
token's line in both paths. -/
theorem conda_invalid_no_diagnostic_cex :
    condaEvents (str "dependencies:\n  - my@pkg") = [] := by decide

/-- C6 (amended). A token whose stripped name fails the validity
pattern is never forwarded to scoring in either path, and parsing
continues; but only the pip path reports the error-level invalid-name
diagnostic at the token's line — the conda path only ever emits
scoring events with valid names and no diagnostic at all. -/
theorem invalid_name_handling_paths :
    (∀ (s : Chars) (e : LineEvent), e ∈ condaEvents s →
        ∃ nm eco ln, e = LineEvent.score nm eco ln ∧ isValidPackageName nm = true) ∧
    (∀ (eco : Eco) (l : Chars) (ls : List Chars) (n : Nat) (nm : Chars),
        (jsTrim l).isEmpty = false →
        processPackageLine l = some nm →
        nm.isEmpty = false →
        isValidPackageName nm = false →
        lineEvents eco (l :: ls) n =
          LineEvent.invalidName nm n :: lineEvents eco ls (n + 1)) := by
  constructor
  · intro s e he
    simp only [condaEvents, condaEventsOf, List.mem_filterMap] at he
    obtain ⟨r, _, hf⟩ := he
    by_cases hc : (!(stripVersion r.dependency).isEmpty &&
        isValidPackageName (stripVersion r.dependency)) = true
    · simp only [hc, if_pos, Option.some.injEq] at hf
      refine ⟨stripVersion r.dependency, r.eco, r.lineNumber, hf.symm, ?_⟩
      have := hc
      simp only [Bool.and_eq_true] at this
      exact this.2
    · simp only [Bool.not_eq_true] at hc
      simp [hc] at hf
  · intro eco l ls n nm hblank hsome hnm hval
    simp [lineEvents, lineBlock, hblank, hsome, hnm, hval]

/-- C6 (witness): the conda conclusion at the sole event of a
well-formed manifest, and the pip conclusion at a concrete invalid
line followed by a further line that is still processed. -/
theorem invalid_name_handling_paths_witness :
    (∃ nm eco ln, LineEvent.score (str "numpy") Eco.conda 2 = LineEvent.score nm eco ln ∧
        isValidPackageName nm = true) ∧
    lineEvents Eco.pip [str "my@pkg", str "requests"] 1 =
      LineEvent.invalidName (str "my@pkg") 1 ::
        lineEvents Eco.pip [str "requests"] 2 :=
  ⟨invalid_name_handling_paths.1 (str "dependencies:\n  - numpy")
      (LineEvent.score (str "numpy") Eco.conda 2) (by decide),
   invalid_name_handling_paths.2 Eco.pip (str "my@pkg") [str "requests"] 1
      (str "my@pkg") (by decide) (by decide) (by decide) (by decide)⟩

/-- C7. The pip flat-list algorithm on the claim's input emits
exactly flask at line 1 and requests at line 4, both pip: the comment
line and the blank line produce no record but still advance the
1-based line number, and the version specifiers are cut at the first
of the delimiter characters. -/
theorem pip_flat_list_example :
    pipEvents (str "flask==2.0.1\n# comment\n\nrequests>=2.0\n") =
      [LineEvent.score (str "flask") Eco.pip 1,
       LineEvent.score (str "requests") Eco.pip 4] := by decide

/-! Helper lemmas about the walker's emissions. -/

set_option maxHeartbeats 1000000 in
theorem condaStepCore_mem {st1 : CState} {line t : Chars} {n : Nat} {r : CondaDep}
    (h : r ∈ (condaStepCore st1 line t n).2) :
    r.lineNumber = n ∧ (r.eco = Eco.pip → r.channel = str "conda-forge") := by
  simp only [condaStepCore] at h
  repeat' split at h
  all_goals
    first
    | exact absurd h (List.not_mem_nil r)
    | (obtain ⟨h1, h2, _⟩ := flowDeps_mem h
       exact ⟨h1, fun he => Eco.noConfusion (h2.symm.trans he)⟩)
    | (rcases List.mem_append.mp h with h2 | h2
       · first
         | exact absurd h2 (List.not_mem_nil r)
         | (obtain ⟨h1, he, _⟩ := flowDeps_mem h2
            exact ⟨h1, fun hp => Eco.noConfusion (he.symm.trans hp)⟩)
       · simp only [List.mem_singleton] at h2
         subst h2
         first
         | exact ⟨rfl, fun _ => rfl⟩
         | exact ⟨rfl, fun hp => Eco.noConfusion hp⟩)

theorem condaStep_mem {st : CState} {l : Chars} {n : Nat} {r : CondaDep}
    (h : r ∈ (condaStep st l n).2) :
    r.lineNumber = n ∧ (r.eco = Eco.pip → r.channel = str "conda-forge") := by
  simp only [condaStep] at h
  split at h
  · exact absurd h (List.not_mem_nil r)
  · exact condaStepCore_mem h

theorem condaWalkAux_mem {ls : List Chars} :
    ∀ {st : CState} {n : Nat} {r : CondaDep}, r ∈ condaWalkAux st ls n →
      n ≤ r.lineNumber ∧ r.lineNumber < n + ls.length ∧
        (r.eco = Eco.pip → r.channel = str "conda-forge") := by
  induction ls with
  | nil => intro st n r h; simp [condaWalkAux] at h
  | cons l ls ih =>
    intro st n r h
    simp only [condaWalkAux, List.mem_append] at h
    rcases h with h | h
    · obtain ⟨h1, h2⟩ := condaStep_mem h
      refine ⟨le_of_eq h1.symm, ?_, h2⟩
      simp [h1]
    · obtain ⟨h1, h2, h3⟩ := ih h
      refine ⟨by omega, by simp only [List.length_cons]; omega, h3⟩

theorem pairwise_le_of_const {xs : List Nat} {n : Nat} (h : ∀ x ∈ xs, x = n) :
    xs.Pairwise (· ≤ ·) := by
  induction xs with
  | nil => simp
  | cons x xs ih =>
    simp only [List.pairwise_cons]
    refine ⟨?_, ih fun y hy => h y (List.mem_cons_of_mem x hy)⟩
    intro y hy
    rw [h x (List.mem_cons_self x xs), h y (List.mem_cons_of_mem x hy)]

theorem condaWalkAux_pairwise (ls : List Chars) :
    ∀ (st : CState) (n : Nat),
      ((condaWalkAux st ls n).map CondaDep.lineNumber).Pairwise (· ≤ ·) := by
  induction ls with
  | nil => intro st n; simp [condaWalkAux]
  | cons l ls ih =>
    intro st n
    simp only [condaWalkAux, List.map_append]
    refine List.pairwise_append.mpr ⟨?_, ih _ _, ?_⟩
    · refine pairwise_le_of_const (n := n) ?_
      intro x hx
      simp only [List.mem_map] at hx
      obtain ⟨r, hr, rfl⟩ := hx
      exact (condaStep_mem hr).1
    · intro x hx y hy
      simp only [List.mem_map] at hx hy
      obtain ⟨rx, hrx, rfl⟩ := hx
      obtain ⟨ry, hry, rfl⟩ := hy
      have h1 := (condaStep_mem hrx).1
      have h2 := (condaWalkAux_mem hry).1
      omega

theorem lineBlock_mem {eco : Eco} {l : Chars} {n : Nat} {e : LineEvent}
    (h : e ∈ lineBlock eco l n) : e.ln = n := by
  simp only [lineBlock] at h
  repeat' split at h
  all_goals
    first
    | exact absurd h (List.not_mem_nil e)
    | (simp only [List.mem_singleton] at h; subst h; rfl)

theorem lineEvents_mem {ls : List Chars} :
    ∀ {eco : Eco} {n : Nat} {e : LineEvent}, e ∈ lineEvents eco ls n →
      n ≤ e.ln ∧ e.ln < n + ls.length := by
  induction ls with
  | nil => intro eco n e h; simp [lineEvents] at h
  | cons l ls ih =>
    intro eco n e h
    simp only [lineEvents, List.mem_append] at h
    rcases h with h | h
    · have h1 := lineBlock_mem h
      simp only [List.length_cons]
      omega
    · obtain ⟨h1, h2⟩ := ih h
      simp only [List.length_cons]
      omega

theorem lineEvents_pairwise (ls : List Chars) :
    ∀ (eco : Eco) (n : Nat),
      ((lineEvents eco ls n).map LineEvent.ln).Pairwise (· ≤ ·) := by
  induction ls with
  | nil => intro eco n; simp [lineEvents]
  | cons l ls ih =>
    intro eco n
    simp only [lineEvents, List.map_append]
    refine List.pairwise_append.mpr ⟨?_, ih _ _, ?_⟩
    · refine pairwise_le_of_const (n := n) ?_
      intro x hx
      simp only [List.mem_map] at hx
      obtain ⟨e, he2, rfl⟩ := hx
      exact lineBlock_mem he2
    · intro x hx y hy
      simp only [List.mem_map] at hx hy
      obtain ⟨ex, hex, rfl⟩ := hx
      obtain ⟨ey, hey, rfl⟩ := hy
      have h1 := lineBlock_mem hex
      have h2 := (lineEvents_mem hey).1
      omega

theorem condaEventsOf_mem {rs : List CondaDep} {e : LineEvent}
    (h : e ∈ condaEventsOf rs) : ∃ r ∈ rs, e.ln = r.lineNumber := by
  simp only [condaEventsOf, List.mem_filterMap] at h
  obtain ⟨r, hr, hf⟩ := h
  refine ⟨r, hr, ?_⟩
  by_cases hc : (!(stripVersion r.dependency).isEmpty &&
      isValidPackageName (stripVersion r.dependency)) = true
  · simp only [hc, if_pos, Option.some.injEq] at hf
    subst hf
    rfl
  · simp only [Bool.not_eq_true] at hc
    simp [hc] at hf

theorem condaEventsOf_pairwise {rs : List CondaDep}
    (h : (rs.map CondaDep.lineNumber).Pairwise (· ≤ ·)) :
    ((condaEventsOf rs).map LineEvent.ln).Pairwise (· ≤ ·) := by
  induction rs with
  | nil => simp [condaEventsOf]
  | cons r rs ih =>
    simp only [List.map_cons, List.pairwise_cons] at h
    obtain ⟨hall, htail⟩ := h
    simp only [condaEventsOf, List.filterMap_cons]
    split
    · exact ih htail
    case h_2 e he =>
      simp only [List.map_cons, List.pairwise_cons]
      refine ⟨?_, ih htail⟩
      intro y hy
      simp only [List.mem_map] at hy
      obtain ⟨ey, hey, rfl⟩ := hy
      obtain ⟨ry, hry, h2⟩ := condaEventsOf_mem hey
      have h3 : e.ln = r.lineNumber := by
        by_cases hc : (!(stripVersion r.dependency).isEmpty &&
            isValidPackageName (stripVersion r.dependency)) = true
        · simp only [hc, if_pos, Option.some.injEq] at he
          subst he
          rfl
        · simp only [Bool.not_eq_true] at hc
          simp [hc] at he
      rw [h3, h2]
      exact hall _ (List.mem_map_of_mem CondaDep.lineNumber hry)

/-- C8. For every manifest text, pip or conda, the sequence of line
numbers along the emitted record sequence is monotonically
non-decreasing: this holds for the pip flat-list events, for the raw
records of the conda walker, and for the conda scoring events derived
from them. -/
theorem line_numbers_monotone (s : Chars) :
    ((pipEvents s).map LineEvent.ln).Pairwise (· ≤ ·) ∧
    ((condaDeps s).map CondaDep.lineNumber).Pairwise (· ≤ ·) ∧
    ((condaEvents s).map LineEvent.ln).Pairwise (· ≤ ·) :=
  ⟨lineEvents_pairwise (s.splitOn '\n') Eco.pip 1,
   condaWalkAux_pairwise (s.splitOn '\n') initState 1,
   condaEventsOf_pairwise (condaWalkAux_pairwise (s.splitOn '\n') initState 1)⟩

/-- C9. The walker is total and always completes to end-of-input:
on every input text, pip or conda, every emitted record carries a
line number of an actual physical line of the input (between 1 and
the number of lines), and on the malformed manifest with an
unterminated flow list the walk still reaches the last line: the
malformed bracket segment is surfaced as a garbage record that the
validity check then drops, the following dependency is still parsed,
and nothing aborts. -/
theorem walker_total_and_bounded :
    (∀ (s : Chars) (r : CondaDep), r ∈ condaDeps s →
        1 ≤ r.lineNumber ∧ r.lineNumber ≤ (s.splitOn '\n').length) ∧
    (∀ (s : Chars) (e : LineEvent), e ∈ pipEvents s →
        1 ≤ e.ln ∧ e.ln ≤ (s.splitOn '\n').length) ∧
    condaDeps (str "dependencies:\n  - [numpy, pandas\n  - flask") =
      [{ dependency := str "- [", lineNumber := 2, eco := Eco.conda,
         channel := str "conda-forge" },
       { dependency := str "flask", lineNumber := 3, eco := Eco.conda,
         channel := str "conda-forge" }] ∧
    condaEvents (str "dependencies:\n  - [numpy, pandas\n  - flask") =
      [LineEvent.score (str "flask") Eco.conda 3] := by
  refine ⟨?_, ?_, by decide, by decide⟩
  · intro s r h
    obtain ⟨h1, h2, _⟩ := condaWalkAux_mem h
    omega
  · intro s e h
    obtain ⟨h1, h2⟩ := lineEvents_mem h
    omega

/-- C9 (witness): the bounds instantiated at the records of concrete
pip and conda manifests. -/
theorem walker_total_and_bounded_witness :
    (1 ≤ ({ dependency := str "numpy", lineNumber := 2, eco := Eco.conda,
            channel := str "conda-forge"} : CondaDep).lineNumber ∧
      ({ dependency := str "numpy", lineNumber := 2, eco := Eco.conda,
         channel := str "conda-forge"} : CondaDep).lineNumber ≤
        ((str "dependencies:\n  - numpy").splitOn '\n').length) ∧
    (1 ≤ (LineEvent.score (str "flask") Eco.pip 1).ln ∧
      (LineEvent.score (str "flask") Eco.pip 1).ln ≤
        ((str "flask==2.0").splitOn '\n').length) :=
  ⟨walker_total_and_bounded.1 (str "dependencies:\n  - numpy")
      { dependency := str "numpy", lineNumber := 2, eco := Eco.conda,
        channel := str "conda-forge"} (by decide),
   walker_total_and_bounded.2.1 (str "flask==2.0")
      (LineEvent.score (str "flask") Eco.pip 1) (by decide)⟩

/-- C10. In the conda walker every emitted pip-ecosystem record
carries the fixed channel conda-forge, for every manifest text,
whatever its channels section says: the active channel is attached
only to conda-ecosystem records. -/
theorem pip_records_fixed_channel (s : Chars) (r : CondaDep)
    (h : r ∈ condaDeps s) (he : r.eco = Eco.pip) :
    r.channel = str "conda-forge" :=
  (condaWalkAux_mem h).2.2 he

/-- C10 (witness): the theorem applied to the pip record of a
manifest whose channels section names bioconda. -/
theorem pip_records_fixed_channel_witness :
    ({ dependency := str "flask", lineNumber := 5, eco := Eco.pip,
       channel := str "conda-forge" } : CondaDep) ∈
      condaDeps (str "channels:\n  - bioconda\ndependencies:\n  - pip:\n    - flask") ∧
    ({ dependency := str "flask", lineNumber := 5, eco := Eco.pip,
       channel := str "conda-forge" } : CondaDep).channel = str "conda-forge" :=
  ⟨by decide,
   pip_records_fixed_channel (str "channels:\n  - bioconda\ndependencies:\n  - pip:\n    - flask")
     { dependency := str "flask", lineNumber := 5, eco := Eco.pip,
       channel := str "conda-forge" } (by decide) rfl⟩

end DepScan
